import Mathlib

/-!
Verification development for the `rust_crawler` repository (src/src/main.rs).

The program is a concurrent web-novel crawler: it loads a TOML configuration
(falling back to defaults), fetches a catalog page, resolves chapter URLs,
dispatches one worker per chapter bounded by a semaphore, collects results
from an mpsc channel with a timeout/stall policy, sorts the results by
chapter index and writes them sequentially to an output file.

This file shallowly embeds the pure logic of that program: configuration
fallback, URL normalization, paragraph filtering, the collector's stall
state machine, the permit-pool transition system, the reassembly sort and
the sequential write pass.  External capabilities (HTTP transport, CSS
selector matching, TOML parsing, the file system) are modelled as explicit
inputs or oracles, following the spec's own treatment of them as opaque.
-/

namespace Crawler

/-! ### Configuration (src/main.rs lines 10-66) -/

def DEFAULT_CONCURRENT_LIMIT : Nat := 15

def DEFAULT_BASE_URL : String := "https://www.alicesw.com/"

def DEFAULT_CATALOG_URL : String := "https://www.alicesw.com/other/chapters/id/47686.html"

def DEFAULT_OUTPUT_FILE : String := "output.txt"

def DEFAULT_TITLE_SELECTOR : String := ".j_chapterName"

def DEFAULT_CONTENT_SELECTOR : String := ".read-content p"

def DEFAULT_CHAPTER_LINK_SELECTOR : String := ".mulu_list li a"

structure CrawlConfig where
  concurrent_limit : Nat

structure UrlsConfig where
  base_url : String
  catalog_url : String

structure SelectorsConfig where
  title_selector : String
  content_selector : String
  chapter_link_selector : String

structure OutputConfig where
  file : String

structure Config where
  crawl : CrawlConfig
  urls : UrlsConfig
  selectors : SelectorsConfig
  output : OutputConfig

deriving instance DecidableEq, Repr for CrawlConfig

deriving instance DecidableEq, Repr for UrlsConfig

deriving instance DecidableEq, Repr for SelectorsConfig

deriving instance DecidableEq, Repr for OutputConfig

deriving instance DecidableEq, Repr for Config

/-- The `Default` instance produced by Rust's `#[derive(Default)]` on the four
nested structs and on `Config` itself: `usize` defaults to `0` and `String`
defaults to `""`.  The `#[serde(default = "...")]` attributes apply only
during deserialization, so `Config::default()` - which `load_config` returns
for a missing, unreadable or unparseable file - uses these values. -/
def CrawlConfig.derivedDefault : CrawlConfig := ⟨0⟩

def UrlsConfig.derivedDefault : UrlsConfig := ⟨"", ""⟩

def SelectorsConfig.derivedDefault : SelectorsConfig := ⟨"", "", ""⟩

def OutputConfig.derivedDefault : OutputConfig := ⟨""⟩

def Config.derivedDefault : Config :=
  ⟨CrawlConfig.derivedDefault, UrlsConfig.derivedDefault,
   SelectorsConfig.derivedDefault, OutputConfig.derivedDefault⟩

/-- The configuration the spec documents as the fallback: every field set to
its `default_*` function's value (src/main.rs lines 60-66). -/
def documentedDefaultConfig : Config :=
  ⟨⟨DEFAULT_CONCURRENT_LIMIT⟩,
   ⟨DEFAULT_BASE_URL, DEFAULT_CATALOG_URL⟩,
   ⟨DEFAULT_TITLE_SELECTOR, DEFAULT_CONTENT_SELECTOR, DEFAULT_CHAPTER_LINK_SELECTOR⟩,
   ⟨DEFAULT_OUTPUT_FILE⟩⟩

/-- `load_config` (src/main.rs lines 92-120).  The file-system probe
(`find_config_file`) and the read are modelled by `file`: `none` means no
`config.toml` was found in the search order, `some (.error e)` means the
found file could not be read, `some (.ok content)` means it was read.  TOML
deserialization is the external `toml`/`serde` capability, passed as the
oracle `parseToml`.  Every failure branch returns `Config::default()`, i.e.
`Config.derivedDefault`. -/
def load_config (file : Option (Except String String))
    (parseToml : String → Except String Config) : Config :=
  match file with
  | none => Config.derivedDefault
  | some (.error _) => Config.derivedDefault
  | some (.ok content) =>
    match parseToml content with
    | .error _ => Config.derivedDefault
    | .ok c => c

/-! ### Paragraph filtering (src/main.rs lines 310-316) -/

/-- The worker's paragraph extraction filter: for each matched content node
the joined text is kept iff it is non-empty - `if !text.is_empty() {
Some(text) } else { None }`.  Note there is no trimming in the source. -/
def collect_paragraphs (texts : List String) : List String :=
  texts.filterMap (fun text => if text.isEmpty then none else some text)

/-! ### Chapter serialization (src/main.rs lines 214-225) -/

structure Chapter where
  title : String
  content : List String

/-- The byte string `Crawler::write_chapter` sends to the output file: the
title, a newline, then each paragraph followed by a newline. -/
def write_chapter_block (c : Chapter) : String :=
  c.title ++ "\n" ++ String.join (c.content.map (fun para => para ++ "\n"))

/-! ### URL normalization (src/main.rs lines 264-272) -/

/-- Rust's `str::trim_start_matches` for a single-character pattern: removes
every leading occurrence of the character. -/
def trim_start_chars (c : Char) : List Char → List Char
  | [] => []
  | d :: rest => if d = c then trim_start_chars c rest else d :: rest

def trimStartMatchesChar (c : Char) (s : String) : String :=
  ⟨trim_start_chars c s.data⟩

/-- Rust's `str::starts_with` on character lists. -/
def starts_with_chars : List Char → List Char → Bool
  | _, [] => true
  | [], _ :: _ => false
  | c :: s, p :: ps => c = p && starts_with_chars s ps

def str_starts_with (s pre : String) : Bool :=
  starts_with_chars s.data pre.data

/-- The href-to-URL mapping in the catalog stage: pass through values that
start with `"http"`, otherwise append to `base_url` after removing all
leading `'/'` characters. -/
def normalize_href (base_url href : String) : String :=
  if str_starts_with href "http" then href
  else base_url ++ trimStartMatchesChar '/' href

/-- The catalog stage's full list mapping (`chapter_urls`). -/
def resolve_chapter_urls (base_url : String) (hrefs : List String) : List String :=
  hrefs.map (normalize_href base_url)

/-- Scheme detection as the spec words it ("values already absolute (scheme
present)"): the value contains `"://"`. Spec comparison definition, not
source. -/
def has_scheme_chars : List Char → Bool
  | ':' :: '/' :: '/' :: _ => true
  | _ :: rest => has_scheme_chars rest
  | [] => false

/-- Modelled from the spec's words for claim C7, for comparison with
`normalize_href`: absolute values (scheme present) pass through unchanged,
relative values are joined to `base_url` after stripping a SINGLE leading
path separator. -/
def normalize_href_specVersion (base_url href : String) : String :=
  if has_scheme_chars href.data then href
  else
    base_url ++
      (match href.data with
       | '/' :: rest => String.mk rest
       | _ => href)

/-! ### Summary statistics (src/main.rs line 401) -/

/-- The average-time-per-chapter figure in the final summary:
`if success_count > 0 { total_ms / success_count } else { 0 }`.  The
division branch is entered only under the positivity guard, so the code
never divides by zero (in this `Nat` model `/` is total, but the guard means
the divisor is positive whenever that branch is taken). -/
def average_per_chapter (total_ms success_count : Nat) : Nat :=
  if success_count > 0 then total_ms / success_count else 0

/-! ### ChapterResult (src/main.rs lines 139-186) -/

structure ChapterResult where
  index : Nat
  title : String
  url : String
  content : List String
  success : Bool
  error_msg : Option String
  duration_ms : Nat
  completed_at : Nat

deriving instance DecidableEq, Repr for ChapterResult

/-- `ChapterResult::success` (src/main.rs lines 151-162). -/
def ChapterResult.mkSuccess (index : Nat) (title url : String)
    (content : List String) (duration_ms completed_at : Nat) : ChapterResult :=
  ⟨index, title, url, content, true, none, duration_ms, completed_at⟩

/-- `ChapterResult::failure` (src/main.rs lines 164-175): empty title, empty
content, `success = false`, a non-empty error message. -/
def ChapterResult.mkFailure (index : Nat) (url error_msg : String)
    (duration_ms completed_at : Nat) : ChapterResult :=
  ⟨index, "", url, [], false, some error_msg, duration_ms, completed_at⟩

/-! ### Fetch-parse worker (src/main.rs lines 293-327)

The network and the HTML selector capability are external; a worker's
interaction with them is summarized by a `FetchOutcome`: the send failed,
reading the body failed, or a page was obtained, in which case the title
selector produced an optional first match and the content selector a list
of joined paragraph texts in document order. -/

inductive FetchOutcome where
  | sendErr (e : String)
  | textErr (e : String)
  | page (titleMatch : Option String) (paragraphTexts : List String)

deriving instance DecidableEq, Repr for FetchOutcome

/-- The single `ChapterResult` a worker emits, one per exit path of the
`match` in the spawned task body (src/main.rs lines 299-325). -/
def worker_result (index : Nat) (url : String) (duration_ms completed_at : Nat) :
    FetchOutcome → ChapterResult
  | .sendErr e =>
    .mkFailure index url ("Send failed: " ++ e) duration_ms completed_at
  | .textErr e =>
    .mkFailure index url ("Request failed: " ++ e) duration_ms completed_at
  | .page none _ =>
    .mkFailure index url "Chapter title not found" duration_ms completed_at
  | .page (some title) paras =>
    .mkSuccess index title url (collect_paragraphs paras) duration_ms completed_at

/-! ### Result collector (src/main.rs lines 331-362)

The mpsc channel is modelled as a list of events as seen by the consumer:
each `rx.recv()` wrapped in `timeout(30s, ·)` yields a received result
(`Ok(Some(r))`), a closed-channel signal (`Ok(None)`), or a timeout
(`Err(_)`).  The collector loop keeps `pending_count`, `waiting_time` and
the accumulated results; it exits normally when `pending_count` reaches 0,
and early on close or when `waiting_time` (reset to 0 on every successful
receive, incremented by 30 per timeout) exceeds 300. -/

inductive Event where
  | recv (r : ChapterResult)
  | closed
  | timedOut

deriving instance DecidableEq, Repr for Event

def Event.recvVal : Event → Option ChapterResult
  | .recv r => some r
  | _ => none

structure CollectOut where
  results : List ChapterResult
  complete : Bool
  rest : List Event

deriving instance DecidableEq, Repr for CollectOut

/-- The collector loop.  Arguments: remaining channel events, `pending_count`,
`waiting_time`, accumulated results (reversed).  `complete` records whether
the loop ended with `pending_count = 0`; `rest` is what is left in the
channel when the loop exits (stragglers the collector walked away from). -/
def collect_go : List Event → Nat → Nat → List ChapterResult → CollectOut
  | rest, 0, _, acc => ⟨acc.reverse, true, rest⟩
  | [], _ + 1, _, acc => ⟨acc.reverse, false, []⟩
  | Event.recv r :: rest, p + 1, _, acc => collect_go rest p 0 (r :: acc)
  | Event.closed :: rest, _ + 1, _, acc => ⟨acc.reverse, false, rest⟩
  | Event.timedOut :: rest, p + 1, w, acc =>
    if w + 30 > 300 then ⟨acc.reverse, false, rest⟩
    else collect_go rest (p + 1) (w + 30) acc

/-- The collection stage: `expected` is `total_chapters` and the loop starts
with `waiting_time = 0` and no results. -/
def collect_results (expected : Nat) (trace : List Event) : CollectOut :=
  collect_go trace expected 0 []

/-- Cumulative (never reset) stall time over a list of channel events:
30 time units per timeout event. -/
def cumulative_stall (trace : List Event) : Nat :=
  30 * trace.countP (fun e => e == Event.timedOut)

/-! ### Reassembly and write pass (src/main.rs lines 365-388) -/

/-- Rust's stable `sort_by_key(|r| r.index)`: a stable merge sort by
index. -/
def sort_results (l : List ChapterResult) : List ChapterResult :=
  l.mergeSort (fun a b => decide (a.index ≤ b.index))

/-- Concatenation of serialized chapter blocks in write order. -/
def concat_blocks : List String → String
  | [] => ""
  | s :: rest => s ++ concat_blocks rest

/-- The sequential write loop over the (sorted) results: a successful result
whose write succeeds increments `success_count` and appends its block; a
successful result whose write fails increments `fail_count` and appends
nothing; a failed result is skipped and increments `fail_count`.  The loop
never aborts early.  `write_ok` is the file-system oracle deciding whether
`write_all` succeeds for a given chapter.  Returns
`(success_count, fail_count, bytes written)`. -/
def write_pass (write_ok : ChapterResult → Bool) :
    List ChapterResult → Nat × Nat × String
  | [] => (0, 0, "")
  | r :: rest =>
    let t := write_pass write_ok rest
    if r.success then
      if write_ok r then
        (t.1 + 1, t.2.1, write_chapter_block ⟨r.title, r.content⟩ ++ t.2.2)
      else (t.1, t.2.1 + 1, t.2.2)
    else (t.1, t.2.1 + 1, t.2.2)

/-- The reassembly-and-write stage: sort by index, then write sequentially
(all writes succeeding); the produced byte string. -/
def reassemble_output (l : List ChapterResult) : String :=
  (write_pass (fun _ => true) (sort_results l)).2.2

/-- The indices of the chapters actually written, in write order. -/
def written_indices (l : List ChapterResult) : List Nat :=
  ((sort_results l).filter (fun r => r.success)).map (fun r => r.index)

/-! ### Catalog stage and run outcome (src/main.rs lines 251-285) -/

inductive RunResult where
  | fatal (e : String)
  | finished (total_chapters : Nat)

deriving instance DecidableEq, Repr for RunResult

def RunResult.is_fatal : RunResult → Bool
  | .fatal _ => true
  | .finished _ => false

/-- The catalog stage: fetch the catalog page (`?` propagates a transport
failure as a fatal error), then extract the link selector's matches in
document order (the external selector capability `extract_hrefs`) and
normalize each to a chapter URL.  There is no emptiness check on the
match list. -/
def catalog_stage (fetched : Except String String)
    (extract_hrefs : String → List String) (base_url : String) :
    Except String (List String) :=
  match fetched with
  | .error e => .error e
  | .ok html => .ok (resolve_chapter_urls base_url (extract_hrefs html))

/-- Number of workers the dispatch loop spawns: one per resolved chapter
URL, none when the run already aborted. -/
def dispatched_workers : Except String (List String) → Nat
  | .error _ => 0
  | .ok urls => urls.length

/-- How the run ends as a function of the catalog stage: a transport error
aborts the whole run (`?` in `main`); otherwise the run proceeds over
`total_chapters = chapter_urls.len()` chapters - even when that is zero -
and finishes normally. -/
def run_after_catalog : Except String (List String) → RunResult
  | .error e => .fatal e
  | .ok urls => .finished urls.length

/-! ### File-system frame of the run prefix (src/main.rs lines 244-259) -/

/-- A file system: path to contents. -/
def FileSystem : Type := String → Option String

/-- `File::create(output_file_path)`: creates or truncates the file to
empty, touching no other path. -/
def file_create (fs : FileSystem) (path : String) : FileSystem :=
  fun q => if q = path then some "" else fs q

/-- The run prefix up to and including the catalog fetch: the output file is
created first (line 246), then the catalog page is fetched (line 253);
a transport failure there aborts via `?`.  Returns the file system at that
point, paired with `some e` when the run aborted. -/
def run_start (fs0 : FileSystem) (output_path : String)
    (catalog_fetched : Except String String) : FileSystem × Option String :=
  let fs1 := file_create fs0 output_path
  match catalog_fetched with
  | .error e => (fs1, some e)
  | .ok _ => (fs1, none)

/-! ### Permit pool transition system (src/main.rs lines 285-329)

One task is spawned per locator.  A task's first action is
`semaphore.acquire()`, which suspends while no permit is free; its body
emits exactly one `ChapterResult` into the channel; the permit guard is
dropped when the task finishes, on every exit path.  The interleaving of
the tasks is modelled as a transition system: each worker is `waiting`
(spawned, before or inside `acquire`), `holding` (permit held), or `done`
(result emitted, permit released).  `acquire` is enabled only while fewer
than `limit` workers hold a permit; `finish` atomically emits the worker's
single result and releases its permit. -/

inductive Phase where
  | waiting
  | holding
  | done

deriving instance DecidableEq, Repr for Phase

structure PoolState (n : Nat) where
  phase : Fin n → Phase
  emitted : List (Fin n × ChapterResult)

/-- Number of workers currently holding a permit. -/
def holders {n : Nat} (s : PoolState n) : Nat :=
  (Finset.univ.filter (fun i => s.phase i = Phase.holding)).card

/-- All workers spawned, none yet holding, nothing emitted. -/
def init_pool (n : Nat) : PoolState n :=
  ⟨fun _ => Phase.waiting, []⟩

inductive PoolStep (limit : Nat) {n : Nat} (urls : Fin n → String) :
    PoolState n → PoolState n → Prop
  | acquire (s : PoolState n) (i : Fin n)
      (hw : s.phase i = Phase.waiting) (hcap : holders s < limit) :
      PoolStep limit urls s ⟨Function.update s.phase i Phase.holding, s.emitted⟩
  | finish (s : PoolState n) (i : Fin n) (o : FetchOutcome) (d t : Nat)
      (hh : s.phase i = Phase.holding) :
      PoolStep limit urls s
        ⟨Function.update s.phase i Phase.done,
         s.emitted ++ [(i, worker_result i.val (urls i) d t o)]⟩

inductive PoolReachable (limit : Nat) {n : Nat} (urls : Fin n → String) :
    PoolState n → Prop
  | init : PoolReachable limit urls (init_pool n)
  | step {s s' : PoolState n} : PoolReachable limit urls s →
      PoolStep limit urls s s' → PoolReachable limit urls s'

/-- States of the one-worker demonstration run used as witness input. -/
def pool_mid : PoolState 1 :=
  ⟨Function.update (init_pool 1).phase 0 Phase.holding, (init_pool 1).emitted⟩

def pool_final : PoolState 1 :=
  ⟨Function.update pool_mid.phase 0 Phase.done,
   pool_mid.emitted
     ++ [(0, worker_result 0 "https://h/c1" 5 100 (FetchOutcome.page (some "T") ["p"]))]⟩

/-- Concrete results used in the collector stall scenario. -/
def resA : ChapterResult := .mkSuccess 0 "A" "https://h/c1" ["pa"] 5 100

def resB : ChapterResult := .mkSuccess 1 "B" "https://h/c2" ["pb"] 6 200

/-- Channel-event trace through the 11th timeout overall: six timeouts, one
received result, five more timeouts.  Cumulative stall here is 330 > 300,
with only `resA` received. -/
def stall_trace_head : List Event :=
  List.replicate 6 .timedOut ++ [.recv resA] ++ List.replicate 5 .timedOut

/-- Full trace: the head above, one more timeout, a second received result,
then eleven consecutive timeouts that finally trip the code's (consecutive)
stall ceiling. -/
def stall_trace : List Event :=
  stall_trace_head ++ ([.timedOut] ++ [.recv resB] ++ List.replicate 11 .timedOut)

/-! ### Helper lemmas -/

lemma collect_go_spec (trace : List Event) :
    ∀ (p w : Nat) (acc : List ChapterResult),
    ∃ consumed, trace = consumed ++ (collect_go trace p w acc).rest ∧
      (collect_go trace p w acc).results
        = acc.reverse ++ consumed.filterMap Event.recvVal ∧
      ((collect_go trace p w acc).complete = true ↔
        (collect_go trace p w acc).results.length = acc.length + p) := by
  induction trace with
  | nil =>
    intro p w acc
    match p with
    | 0 => exact ⟨[], rfl, by simp [collect_go], by simp [collect_go]⟩
    | p' + 1 =>
      refine ⟨[], rfl, by simp [collect_go], ?_⟩
      simp only [collect_go, List.length_reverse]
      constructor
      · intro h; cases h
      · intro h; omega
  | cons e rest ih =>
    intro p w acc
    match p with
    | 0 => exact ⟨[], by simp [collect_go], by simp [collect_go], by simp [collect_go]⟩
    | p' + 1 =>
      match e with
      | Event.recv r =>
        have hstep : collect_go (Event.recv r :: rest) (p' + 1) w acc
            = collect_go rest p' 0 (r :: acc) := rfl
        obtain ⟨c, hc, hres, hcomp⟩ := ih p' 0 (r :: acc)
        refine ⟨Event.recv r :: c, ?_, ?_, ?_⟩
        · rw [hstep]
          exact congrArg (Event.recv r :: ·) hc
        · rw [hstep, hres]
          simp [Event.recvVal]
        · rw [hstep, hcomp]
          simp only [List.length_cons]
          omega
      | Event.closed =>
        have hstep : collect_go (Event.closed :: rest) (p' + 1) w acc
            = ⟨acc.reverse, false, rest⟩ := rfl
        refine ⟨[Event.closed], ?_, ?_, ?_⟩
        · rw [hstep]
          rfl
        · rw [hstep]
          simp [Event.recvVal]
        · rw [hstep]
          simp only [List.length_reverse]
          constructor
          · intro h; cases h
          · intro h; omega
      | Event.timedOut =>
        by_cases hw : w + 30 > 300
        · have hstep : collect_go (Event.timedOut :: rest) (p' + 1) w acc
              = ⟨acc.reverse, false, rest⟩ := by
            simp [collect_go, hw]
          refine ⟨[Event.timedOut], ?_, ?_, ?_⟩
          · rw [hstep]
            rfl
          · rw [hstep]
            simp [Event.recvVal]
          · rw [hstep]
            simp only [List.length_reverse]
            constructor
            · intro h; cases h
            · intro h; omega
        · have hstep : collect_go (Event.timedOut :: rest) (p' + 1) w acc
              = collect_go rest (p' + 1) (w + 30) acc := by
            simp [collect_go, hw]
          obtain ⟨c, hc, hres, hcomp⟩ := ih (p' + 1) (w + 30) acc
          refine ⟨Event.timedOut :: c, ?_, ?_, ?_⟩
          · rw [hstep]
            exact congrArg (Event.timedOut :: ·) hc
          · rw [hstep, hres]
            simp [Event.recvVal]
          · rw [hstep, hcomp]

lemma trim_start_chars_replicate (c : Char) (l : List Char) :
    ∃ n, l = List.replicate n c ++ trim_start_chars c l := by
  induction l with
  | nil => exact ⟨0, rfl⟩
  | cons d rest ih =>
    by_cases h : d = c
    · subst h
      obtain ⟨n, hn⟩ := ih
      refine ⟨n + 1, ?_⟩
      simp only [trim_start_chars, if_pos rfl, List.replicate_succ, List.cons_append]
      exact congrArg (d :: ·) hn
    · exact ⟨0, by simp [trim_start_chars, h]⟩

lemma trim_start_chars_head (c : Char) (l : List Char) :
    ∀ d rest, trim_start_chars c l = d :: rest → d ≠ c := by
  induction l with
  | nil => intro d rest h; cases h
  | cons e tail ih =>
    intro d rest h
    by_cases he : e = c
    · exact ih d rest (by simpa [trim_start_chars, he] using h)
    · simp only [trim_start_chars, if_neg he] at h
      cases h
      exact he

lemma collect_paragraphs_eq_filter (texts : List String) :
    collect_paragraphs texts = texts.filter (fun t => !t.isEmpty) := by
  induction texts with
  | nil => rfl
  | cons t rest ih =>
    by_cases h : t.isEmpty
    · simp [collect_paragraphs, List.filterMap_cons, h, List.filter_cons] at ih ⊢
      exact ih
    · simp [collect_paragraphs, List.filterMap_cons, h, List.filter_cons] at ih ⊢
      exact ih

lemma write_pass_len (write_ok : ChapterResult → Bool) (l : List ChapterResult) :
    (write_pass write_ok l).1 + (write_pass write_ok l).2.1 = l.length := by
  induction l with
  | nil => rfl
  | cons r rest ih =>
    by_cases hs : r.success <;> by_cases hw : write_ok r <;>
      simp [write_pass, hs, hw] <;> omega

lemma write_pass_spec (write_ok : ChapterResult → Bool) (l : List ChapterResult) :
    (write_pass write_ok l).1
        = (l.filter (fun r => r.success && write_ok r)).length ∧
    (write_pass write_ok l).2.2
        = concat_blocks ((l.filter (fun r => r.success && write_ok r)).map
            (fun r => write_chapter_block ⟨r.title, r.content⟩)) := by
  induction l with
  | nil => exact ⟨rfl, rfl⟩
  | cons r rest ih =>
    obtain ⟨ih1, ih3⟩ := ih
    by_cases hs : r.success <;> by_cases hw : write_ok r <;>
      simp [write_pass, List.filter_cons, concat_blocks, hs, hw, ih1, ih3]

lemma sort_results_perm (l : List ChapterResult) : (sort_results l).Perm l :=
  List.mergeSort_perm l _

lemma sort_results_sorted (l : List ChapterResult) :
    List.Pairwise (fun a b : ChapterResult => a.index ≤ b.index) (sort_results l) := by
  have h := @List.sorted_mergeSort ChapterResult
    (fun a b => decide (a.index ≤ b.index))
    (fun a b c h₁ h₂ => by
      simp only [decide_eq_true_eq] at h₁ h₂ ⊢
      omega)
    (fun a b => by
      simp only [Bool.or_eq_true, decide_eq_true_eq]
      omega)
    l
  exact h.imp (fun hab => by simpa using hab)

lemma sort_results_sorted_lt (l : List ChapterResult)
    (h : (l.map ChapterResult.index).Nodup) :
    List.Pairwise (fun a b : ChapterResult => a.index < b.index) (sort_results l) := by
  have hle := sort_results_sorted l
  have hnd : ((sort_results l).map ChapterResult.index).Nodup :=
    (((sort_results_perm l).map ChapterResult.index).nodup_iff).mpr h
  have hne : List.Pairwise (fun a b : ChapterResult => a.index ≠ b.index)
      (sort_results l) := List.pairwise_map.mp hnd
  exact (hle.and hne).imp (fun hab => Nat.lt_of_le_of_ne hab.1 hab.2)

lemma sort_results_eq_of_perm (l₁ l₂ : List ChapterResult) (hp : l₁.Perm l₂)
    (h : (l₁.map ChapterResult.index).Nodup) :
    sort_results l₁ = sort_results l₂ := by
  have h₂ : (l₂.map ChapterResult.index).Nodup := ((hp.map _).nodup_iff).mp h
  have hs₁ := sort_results_sorted_lt l₁ h
  have hs₂ := sort_results_sorted_lt l₂ h₂
  have hperm : (sort_results l₁).Perm (sort_results l₂) :=
    (sort_results_perm l₁).trans (hp.trans (sort_results_perm l₂).symm)
  haveI : IsAntisymm ChapterResult (fun a b => a.index < b.index) :=
    ⟨fun a b h1 h2 => absurd (Nat.lt_trans h1 h2) (Nat.lt_irrefl _)⟩
  exact List.eq_of_perm_of_sorted hperm hs₁ hs₂

lemma holders_update_holding {n : Nat} (phase : Fin n → Phase) (i : Fin n)
    (h : phase i ≠ Phase.holding) :
    (Finset.univ.filter
        (fun j => Function.update phase i Phase.holding j = Phase.holding)).card
      = (Finset.univ.filter (fun j => phase j = Phase.holding)).card + 1 := by
  have heq : (Finset.univ.filter
        (fun j => Function.update phase i Phase.holding j = Phase.holding))
      = insert i (Finset.univ.filter (fun j => phase j = Phase.holding)) := by
    ext j
    simp only [Finset.mem_filter, Finset.mem_univ, true_and, Finset.mem_insert,
      Function.update_apply]
    by_cases hj : j = i
    · simp [hj]
    · simp [hj]
  rw [heq, Finset.card_insert_of_not_mem (by simp [h])]

lemma holders_update_done {n : Nat} (phase : Fin n → Phase) (i : Fin n) :
    (Finset.univ.filter
        (fun j => Function.update phase i Phase.done j = Phase.holding)).card
      ≤ (Finset.univ.filter (fun j => phase j = Phase.holding)).card := by
  apply Finset.card_le_card
  intro j hj
  simp only [Finset.mem_filter, Finset.mem_univ, true_and,
    Function.update_apply] at hj ⊢
  by_cases hji : j = i
  · simp [hji] at hj
  · simpa [hji] using hj

lemma pool_invariant {limit n : Nat} {urls : Fin n → String} {s : PoolState n}
    (h : PoolReachable limit urls s) :
    holders s ≤ limit ∧
    ∀ i : Fin n, (s.emitted.map Prod.fst).count i
      = (if s.phase i = Phase.done then 1 else 0) := by
  induction h with
  | init =>
    constructor
    · simp [holders, init_pool]
    · intro i
      simp [init_pool]
  | @step s s' hr hs ih =>
    obtain ⟨ih1, ih2⟩ := ih
    cases hs with
    | acquire i hw hcap =>
      constructor
      · have hcard := holders_update_holding s.phase i (by rw [hw]; intro hc; cases hc)
        show (Finset.univ.filter
          (fun j => Function.update s.phase i Phase.holding j = Phase.holding)).card ≤ limit
        rw [hcard]
        exact hcap
      · intro j
        have hj := ih2 j
        by_cases hji : j = i
        · subst hji
          simpa [Function.update_same, hw] using hj
        · simpa [Function.update_apply, hji] using hj
    | finish i o d t hh =>
      constructor
      · exact le_trans (holders_update_done s.phase i) ih1
      · intro j
        have hj := ih2 j
        show ((s.emitted ++ [(i, worker_result i.val (urls i) d t o)]).map
          Prod.fst).count j = _
        rw [List.map_append, List.count_append]
        by_cases hji : j = i
        · subst hji
          have hnd : ¬s.phase j = Phase.done := by rw [hh]; intro hc; cases hc
          simp [Function.update_same, hj, hnd, List.count_cons]
        · have hone : ((([(i, worker_result i.val (urls i) d t o)]).map
              Prod.fst).count j) = 0 := by
            simp [List.count_cons, hji]
          rw [hone, hj]
          simp [Function.update_apply, hji]

/-! ### Claim theorems: configuration, paragraphs, URLs, summary -/

/-- Claim C1 (code bug): when the configuration file is missing - and
likewise when it is unreadable or fails to parse - `load_config` returns
`Config::default()`, which by `#[derive(Default)]` has `concurrent_limit =
0` (not the documented 15), output file `""` (not `"output.txt"`), and empty
URLs and selectors.  The `#[serde(default = "...")]` functions apply only
during a successful deserialization, so the configuration used on these
paths is not the documented default configuration, contradicting both the
spec and the program's own "using default configuration" log line. -/
theorem load_config_fallback_is_derived_default :
    load_config none (fun _ => .error "unused") = Config.derivedDefault ∧
    load_config (some (.error "permission denied")) (fun _ => .error "unused")
      = Config.derivedDefault ∧
    load_config (some (.ok "not toml")) (fun _ => .error "expected table")
      = Config.derivedDefault ∧
    (load_config none (fun _ => .error "unused")).crawl.concurrent_limit = 0 ∧
    (load_config none (fun _ => .error "unused")).output.file = "" ∧
    (load_config none (fun _ => .error "unused")).urls.base_url = "" ∧
    documentedDefaultConfig.crawl.concurrent_limit = 15 ∧
    documentedDefaultConfig.output.file = "output.txt" ∧
    load_config none (fun _ => .error "unused") ≠ documentedDefaultConfig := by
  refine ⟨rfl, rfl, rfl, rfl, rfl, rfl, rfl, rfl, ?_⟩
  intro h
  exact absurd (congrArg (fun c => c.crawl.concurrent_limit) h) (by decide)

/-- Claim C6 counterexample: the source filter drops only paragraphs whose
text is exactly empty - there is no trimming - so the extracted sequence
`["", "Hello", "  "]` reduces to `["Hello", "  "]`, not `["Hello"]`, and the
whitespace-only line survives into the written chapter block. -/
theorem collect_paragraphs_keeps_whitespace_only :
    collect_paragraphs ["", "Hello", "  "] = ["Hello", "  "] ∧
    write_chapter_block ⟨"T", collect_paragraphs ["", "Hello", "  "]⟩
      = "T\nHello\n  \n" ∧
    collect_paragraphs ["", "Hello", "  "] ≠ ["Hello"] := by
  refine ⟨rfl, rfl, ?_⟩
  decide

/-- Claim C6 as amended: a paragraph is dropped iff its extracted text is
exactly the empty string (no trimming); consequently the empty string never
appears in the paragraph list, every non-empty extracted text is kept, and
`["", "Hello", "  "]` reduces to `["Hello", "  "]` in the written output. -/
theorem collect_paragraphs_drops_exactly_empty (texts : List String) :
    collect_paragraphs texts = texts.filter (fun t => !t.isEmpty) ∧
    "" ∉ collect_paragraphs texts ∧
    (∀ t ∈ texts, t.isEmpty = false → t ∈ collect_paragraphs texts) ∧
    write_chapter_block ⟨"T", collect_paragraphs ["", "Hello", "  "]⟩
      = "T\nHello\n  \n" := by
  refine ⟨collect_paragraphs_eq_filter texts, ?_, ?_, rfl⟩
  · rw [collect_paragraphs_eq_filter]
    intro hmem
    exact absurd (List.of_mem_filter hmem) (by decide)
  · intro t ht hne
    rw [collect_paragraphs_eq_filter]
    exact List.mem_filter.mpr ⟨ht, by simp [hne]⟩

/-- Witness for `collect_paragraphs_drops_exactly_empty` at the concrete
scenario input. -/
theorem collect_paragraphs_drops_exactly_empty_witness :
    "" ∉ collect_paragraphs ["", "Hello", "  "] ∧
    "Hello" ∈ collect_paragraphs ["", "Hello", "  "] := by
  have h := collect_paragraphs_drops_exactly_empty ["", "Hello", "  "]
  exact ⟨h.2.1, h.2.2.1 "Hello" (by decide) (by decide)⟩

/-- Claim C7 counterexample: the source's normalization tests
`starts_with("http")`, not "scheme present", and strips ALL leading `'/'`
characters, not a single one.  On `"//c1"` the code yields
`"https://h/c1"` while the claim's single-separator stripping yields
`"https://h//c1"`; on `"ftp://x/a"` (scheme present but not `http`) the
code joins it to the base instead of passing it through. -/
theorem normalize_href_counterexample :
    normalize_href "https://h/" "//c1" = "https://h/c1" ∧
    normalize_href_specVersion "https://h/" "//c1" = "https://h//c1" ∧
    normalize_href "https://h/" "//c1"
      ≠ normalize_href_specVersion "https://h/" "//c1" ∧
    normalize_href "https://h/" "ftp://x/a" = "https://h/ftp://x/a" ∧
    normalize_href_specVersion "https://h/" "ftp://x/a" = "ftp://x/a" ∧
    normalize_href "https://h/" "ftp://x/a"
      ≠ normalize_href_specVersion "https://h/" "ftp://x/a" := by
  refine ⟨rfl, rfl, by decide, rfl, rfl, by decide⟩

/-- Claim C7 as amended: values starting with `"http"` pass through
unchanged; all other values are joined to `base_url` after stripping every
leading `'/'` (the stripped remainder never starts with `'/'`, and the
original href is some number of `'/'` characters followed by it); the
concrete three-link scenario resolves as documented, at indices 0, 1, 2. -/
theorem normalize_href_amended :
    (∀ base href : String, str_starts_with href "http" = true →
      normalize_href base href = href) ∧
    (∀ base href : String, str_starts_with href "http" = false →
      normalize_href base href = base ++ trimStartMatchesChar '/' href) ∧
    (∀ href : String,
      ∃ n, href.data = List.replicate n '/' ++ (trimStartMatchesChar '/' href).data) ∧
    (∀ (href : String) (c : Char) (rest : List Char),
      (trimStartMatchesChar '/' href).data = c :: rest → c ≠ '/') ∧
    resolve_chapter_urls "https://h/" ["/c1", "http://x/c2", "/c3"]
      = ["https://h/c1", "http://x/c2", "https://h/c3"] ∧
    (resolve_chapter_urls "https://h/" ["/c1", "http://x/c2", "/c3"]).enum
      = [(0, "https://h/c1"), (1, "http://x/c2"), (2, "https://h/c3")] := by
  refine ⟨?_, ?_, ?_, ?_, rfl, rfl⟩
  · intro base href h
    simp [normalize_href, h]
  · intro base href h
    simp [normalize_href, h]
  · intro href
    exact trim_start_chars_replicate '/' href.data
  · intro href c rest h
    exact trim_start_chars_head '/' href.data c rest h

/-- Witness for `normalize_href_amended` at concrete hrefs. -/
theorem normalize_href_amended_witness :
    normalize_href "https://h/" "http://x/c2" = "http://x/c2" ∧
    normalize_href "https://h/" "//c1"
      = "https://h/" ++ trimStartMatchesChar '/' "//c1" := by
  have h := normalize_href_amended
  exact ⟨h.1 "https://h/" "http://x/c2" (by decide),
         h.2.1 "https://h/" "//c1" (by decide)⟩

/-- Claim C9: the average-time-per-chapter figure is `total_ms /
success_count` only under the guard `success_count > 0` and is `0` when
`success_count = 0`, so the division branch is never taken with a zero
divisor; moreover the reported figure never exceeds the total elapsed
time. -/
theorem average_per_chapter_guarded (total_ms success_count : Nat) :
    (success_count = 0 → average_per_chapter total_ms success_count = 0) ∧
    (0 < success_count →
      average_per_chapter total_ms success_count = total_ms / success_count) ∧
    average_per_chapter total_ms success_count ≤ total_ms := by
  refine ⟨fun h => ?_, fun h => ?_, ?_⟩
  · simp [average_per_chapter, h]
  · unfold average_per_chapter
    rw [if_pos h]
  · unfold average_per_chapter
    split
    · exact Nat.div_le_self _ _
    · exact Nat.zero_le _

/-- Claim C3 counterexample: with `expected_count = 3` and the trace
`stall_trace`, the cumulative (never-reset) stall time already exceeds the
300 ceiling after its first 12 events (`stall_trace_head`: 11 timeouts =
330 time units), at which point only `resA` had been received - so the
claim predicts early termination returning exactly `[resA]`.  The code
instead resets `waiting_time` on every successful receive, keeps going,
receives `resB`, and only terminates after 11 *consecutive* timeouts,
returning `[resA, resB]` with `complete = false`. -/
theorem collector_cumulative_stall_counterexample :
    cumulative_stall stall_trace_head = 330 ∧
    stall_trace_head.filterMap Event.recvVal = [resA] ∧
    stall_trace_head
        ++ ([Event.timedOut] ++ [Event.recv resB] ++ List.replicate 11 Event.timedOut)
      = stall_trace ∧
    (collect_results 3 stall_trace).results = [resA, resB] ∧
    (collect_results 3 stall_trace).complete = false ∧
    [resA, resB] ≠ [resA] := by
  refine ⟨by decide, by decide, rfl, by decide, by decide, by decide⟩

/-- Claim C3 as amended: the stall counter is reset to zero on every
successful receive, so the ceiling applies to *consecutive* stall time.
For every expected count and channel-event trace: the collector returns
exactly the received results of the consumed part of the trace, in arrival
order (none duplicated, none lost), with `complete = true` iff exactly
`expected` results were received; and whenever the counter is fresh and 11
consecutive timeouts follow (consecutive stall 330 > 300) while results are
still pending, collection terminates early right there, with exactly the
results gathered so far. -/
theorem collector_stall_policy :
    (∀ (expected : Nat) (trace : List Event),
      ∃ consumed, trace = consumed ++ (collect_results expected trace).rest ∧
        (collect_results expected trace).results = consumed.filterMap Event.recvVal ∧
        ((collect_results expected trace).complete = true ↔
          (collect_results expected trace).results.length = expected)) ∧
    (∀ (p : Nat) (acc : List ChapterResult) (rest : List Event),
      collect_go (List.replicate 11 Event.timedOut ++ rest) (p + 1) 0 acc
        = ⟨acc.reverse, false, rest⟩) := by
  constructor
  · intro expected trace
    obtain ⟨c, hc, hres, hcomp⟩ := collect_go_spec trace expected 0 []
    exact ⟨c, hc, by simpa using hres, by simpa using hcomp⟩
  · intro p acc rest
    rfl

/-- Witness for `average_per_chapter_guarded` at concrete counts. -/
theorem average_per_chapter_guarded_witness :
    average_per_chapter 100 0 = 0 ∧ average_per_chapter 100 4 = 25 := by
  refine ⟨(average_per_chapter_guarded 100 0).1 rfl, ?_⟩
  have h := (average_per_chapter_guarded 100 4).2.1 (by decide)
  exact h.trans (by norm_num)

/-- Claim C2: for any two arrival orders of the same multiset of results
(the hypothesis `l₁.Perm l₂`), with pairwise-distinct chapter indices (the
program dispatches one worker per locator and indices `0..N-1` are unique,
a spec invariant), the reassembly-and-write stage produces byte-identical
output and the same written-chapter sequence; instantiating `l₂` with
`sort_results l₁` - arrival in strict index order, which is a permutation
of `l₁` - gives equality with the in-order output.  Moreover the sequence
of written chapter indices is strictly increasing. -/
theorem reassembly_order_independent (l₁ l₂ : List ChapterResult)
    (hp : l₁.Perm l₂) (hnd : (l₁.map ChapterResult.index).Nodup) :
    reassemble_output l₁ = reassemble_output l₂ ∧
    written_indices l₁ = written_indices l₂ ∧
    List.Pairwise (· < ·) (written_indices l₁) := by
  have hsort := sort_results_eq_of_perm l₁ l₂ hp hnd
  refine ⟨by rw [reassemble_output, hsort, reassemble_output],
          by rw [written_indices, hsort, written_indices], ?_⟩
  have hlt := sort_results_sorted_lt l₁ hnd
  have hfilter := hlt.filter (fun r => r.success)
  exact List.pairwise_map.mpr hfilter

/-- Witness for `reassembly_order_independent`: a reversed three-result
arrival (one of them failed) against in-order arrival. -/
theorem reassembly_order_independent_witness :
    reassemble_output
        [ChapterResult.mkFailure 2 "u2" "Send failed: t" 3 30,
         ChapterResult.mkSuccess 1 "Y" "u1" ["y1"] 2 20,
         ChapterResult.mkSuccess 0 "X" "u0" ["x1"] 1 10]
      = reassemble_output
        [ChapterResult.mkSuccess 0 "X" "u0" ["x1"] 1 10,
         ChapterResult.mkSuccess 1 "Y" "u1" ["y1"] 2 20,
         ChapterResult.mkFailure 2 "u2" "Send failed: t" 3 30] ∧
    written_indices
        [ChapterResult.mkFailure 2 "u2" "Send failed: t" 3 30,
         ChapterResult.mkSuccess 1 "Y" "u1" ["y1"] 2 20,
         ChapterResult.mkSuccess 0 "X" "u0" ["x1"] 1 10]
      = written_indices
        [ChapterResult.mkSuccess 0 "X" "u0" ["x1"] 1 10,
         ChapterResult.mkSuccess 1 "Y" "u1" ["y1"] 2 20,
         ChapterResult.mkFailure 2 "u2" "Send failed: t" 3 30] ∧
    List.Pairwise (· < ·) (written_indices
        [ChapterResult.mkFailure 2 "u2" "Send failed: t" 3 30,
         ChapterResult.mkSuccess 1 "Y" "u1" ["y1"] 2 20,
         ChapterResult.mkSuccess 0 "X" "u0" ["x1"] 1 10]) :=
  reassembly_order_independent _ _ (by decide) (by decide)

/-- Claim C8: over the write pass with an arbitrary per-chapter write
oracle, `success_count` is exactly the number of successful results whose
write succeeded, `success_count + fail_count` equals the number of results
processed (so every `success=false` result and every failed write is
counted as a failure), and the bytes written are exactly the blocks of the
successfully written chapters, in order - a write failure or a failed
result never aborts the writes of subsequent chapters. -/
theorem write_pass_counts (write_ok : ChapterResult → Bool)
    (results : List ChapterResult) :
    (write_pass write_ok results).1 + (write_pass write_ok results).2.1
        = results.length ∧
    (write_pass write_ok results).1
        = (results.filter (fun r => r.success && write_ok r)).length ∧
    (write_pass write_ok results).2.1
        = results.length
          - (results.filter (fun r => r.success && write_ok r)).length ∧
    (write_pass write_ok results).2.2
        = concat_blocks ((results.filter (fun r => r.success && write_ok r)).map
            (fun r => write_chapter_block ⟨r.title, r.content⟩)) := by
  obtain ⟨h1, h3⟩ := write_pass_spec write_ok results
  have h4 := write_pass_len write_ok results
  exact ⟨h4, h1, by omega, h3⟩

/-- Claim C5 counterexample: a catalog page that fetches successfully but
whose link selector yields zero matches does NOT abort the run: the
catalog stage returns an empty URL list, no workers are dispatched, and
the run finishes normally (`finished 0`, writing an empty output), with no
fatal error.  This falsifies the zero-matches half of the claim. -/
theorem zero_matches_does_not_abort :
    catalog_stage (.ok "<html><body></body></html>") (fun _ => []) "https://h/"
      = .ok [] ∧
    run_after_catalog
        (catalog_stage (.ok "<html><body></body></html>") (fun _ => []) "https://h/")
      = .finished 0 ∧
    (run_after_catalog
        (catalog_stage (.ok "<html><body></body></html>") (fun _ => []) "https://h/")).is_fatal
      = false ∧
    dispatched_workers
        (catalog_stage (.ok "<html><body></body></html>") (fun _ => []) "https://h/")
      = 0 :=
  ⟨rfl, rfl, rfl, rfl⟩

/-- Claim C5 as amended: a transport failure while fetching the catalog
page aborts the run as a fatal error before any worker is dispatched; a
catalog whose link selector yields zero matches does not abort - the run
proceeds with zero locators, dispatches no workers, and finishes
normally. -/
theorem catalog_failure_aborts_before_dispatch :
    (∀ (e : String) (extract_hrefs : String → List String) (base_url : String),
      run_after_catalog (catalog_stage (.error e) extract_hrefs base_url)
          = .fatal e ∧
      dispatched_workers (catalog_stage (.error e) extract_hrefs base_url) = 0) ∧
    (∀ (html base_url : String) (extract_hrefs : String → List String),
      extract_hrefs html = [] →
      run_after_catalog (catalog_stage (.ok html) extract_hrefs base_url)
          = .finished 0 ∧
      dispatched_workers (catalog_stage (.ok html) extract_hrefs base_url) = 0) := by
  constructor
  · intro e extract_hrefs base_url
    exact ⟨rfl, rfl⟩
  · intro html base_url extract_hrefs h
    constructor <;>
      simp [catalog_stage, run_after_catalog, dispatched_workers,
        resolve_chapter_urls, h]

/-- Witness for `catalog_failure_aborts_before_dispatch` at concrete
inputs. -/
theorem catalog_failure_aborts_before_dispatch_witness :
    run_after_catalog
        (catalog_stage (.error "connection refused") (fun _ => ["/c1"]) "https://h/")
      = .fatal "connection refused" ∧
    run_after_catalog
        (catalog_stage (.ok "<html></html>") (fun _ => []) "https://h/")
      = .finished 0 := by
  have h := catalog_failure_aborts_before_dispatch
  exact ⟨(h.1 "connection refused" (fun _ => ["/c1"]) "https://h/").1,
         (h.2 "<html></html>" "https://h/" (fun _ => []) rfl).1⟩

/-- Claim C10: the output file is created (truncated to empty) before the
catalog page is fetched, so a run that aborts on a catalog transport
failure leaves an empty file at `output_path` on disk, and every other
path of the file system is untouched.  The last conjunct shows the file
exists (empty) at that point whatever the fetch outcome - the creation
precedes the fetch. -/
theorem output_file_created_before_catalog (fs0 : FileSystem)
    (output_path e : String) :
    (run_start fs0 output_path (.error e)).2 = some e ∧
    (run_start fs0 output_path (.error e)).1 output_path = some "" ∧
    (∀ q, q ≠ output_path → (run_start fs0 output_path (.error e)).1 q = fs0 q) ∧
    (∀ catalog_fetched,
      (run_start fs0 output_path catalog_fetched).1 output_path = some "") := by
  refine ⟨rfl, by simp [run_start, file_create], ?_, ?_⟩
  · intro q hq
    simp [run_start, file_create, hq]
  · intro catalog_fetched
    cases catalog_fetched <;> simp [run_start, file_create]

/-- Witness for `output_file_created_before_catalog` on a file system
holding one unrelated file. -/
theorem output_file_created_before_catalog_witness :
    (run_start (fun q => if q = "other.txt" then some "data" else none)
        "output.txt" (.error "connection refused")).2 = some "connection refused" ∧
    (run_start (fun q => if q = "other.txt" then some "data" else none)
        "output.txt" (.error "connection refused")).1 "output.txt" = some "" ∧
    (run_start (fun q => if q = "other.txt" then some "data" else none)
        "output.txt" (.error "connection refused")).1 "other.txt" = some "data" := by
  have h := output_file_created_before_catalog
    (fun q => if q = "other.txt" then some "data" else none)
    "output.txt" "connection refused"
  exact ⟨h.1, h.2.1, (h.2.2.1 "other.txt" (by decide)).trans (by decide)⟩

/-- Claim C4: in every state reachable by any interleaving of the permit
pool transition system, at most `limit` workers hold a permit; and in
every reachable state in which all dispatched workers have finished -
whichever of the three exit paths (success, transport failure, parse
failure) each took - no permit is still held (none leaked) and each worker
has emitted exactly one ChapterResult. -/
theorem permit_pool_bounded {limit n : Nat} {urls : Fin n → String}
    {s : PoolState n} (h : PoolReachable limit urls s) :
    holders s ≤ limit ∧
    ((∀ i : Fin n, s.phase i = Phase.done) →
      holders s = 0 ∧
      ∀ i : Fin n, (s.emitted.map Prod.fst).count i = 1) := by
  obtain ⟨h1, h2⟩ := pool_invariant h
  refine ⟨h1, fun hall => ⟨?_, fun i => by simpa [hall i] using h2 i⟩⟩
  show (Finset.univ.filter (fun i => s.phase i = Phase.holding)).card = 0
  rw [Finset.card_eq_zero]
  ext j
  simp [hall j]

/-- Witness for `permit_pool_bounded`: a one-worker pool with limit 1 run
to completion (acquire, then finish on the success path). -/
theorem permit_pool_bounded_witness :
    holders pool_final ≤ 1 ∧
    holders pool_final = 0 ∧
    (pool_final.emitted.map Prod.fst).count 0 = 1 := by
  have hreach : PoolReachable 1 (fun _ => "https://h/c1") pool_final := by
    have h0 : PoolReachable 1 (fun _ => "https://h/c1") (init_pool 1) :=
      PoolReachable.init
    have h1 : PoolReachable 1 (fun _ => "https://h/c1") pool_mid :=
      PoolReachable.step h0 (PoolStep.acquire (init_pool 1) 0 rfl (by decide))
    exact PoolReachable.step h1
      (PoolStep.finish pool_mid 0 (FetchOutcome.page (some "T") ["p"]) 5 100 rfl)
  have h := permit_pool_bounded hreach
  exact ⟨h.1, (h.2 (by decide)).1, (h.2 (by decide)).2 0⟩

end Crawler
